import Mathlib

/-!
Shallow embedding of the status-aggregation routine in
`web/functions/api/status.ts` of the sequence-relayer-status repository.

Conventions of the embedding:
* JSON numbers are modelled as rationals (JSON has no NaN/Infinity literal,
  and `res.json()` only ever yields finite decimal numbers).
* A JavaScript value that may be `undefined`/`null` or absent is an `Option`.
* The two `await` points inside a worker iteration (`fetch` and `res.json()`)
  read no shared state between them, so they are collapsed into a single
  suspension point in the scheduler model; the response of a probe, including
  a possible transport fault or body-parse failure, is a `ProbeResp`.
* `Except String` models a thrown JS `Error` carried by its `.message`.
-/

namespace RelayerStatus

/-- JSON values as produced by `res.json()`. Objects carry their post-parse
field list; `JSON.parse` collapses duplicate keys, so the field lists of
parsed objects have pairwise distinct keys and first-match lookup agrees
with JS property access. -/
inductive Json where
  | null
  | bool (b : Bool)
  | num (x : ℚ)
  | str (s : String)
  | arr (elems : List Json)
  | obj (fields : List (String × Json))

/-- JS optional-chained property access `v?.[k]` for the keys this code
reads (all non-index keys, hence `undefined` on arrays and strings). -/
def jsGet (v : Json) (k : String) : Option Json :=
  match v with
  | .obj fs => fs.lookup k
  | _ => none

/-- Own enumerable string-keyed entries of a value, as used by both object
spread `{...v}` and `Object.entries(v)`: an object yields its fields, an
array its index-keyed elements, a string its index-keyed characters,
primitives nothing. -/
def spreadEntries : Json → List (String × Json)
  | .obj fs => fs
  | .arr l => l.enum.map (fun p => (toString p.1, p.2))
  | .str s => s.toList.enum.map (fun p => (toString p.1, Json.str (String.mk [p.2])))
  | _ => []

/-- The object literal `{...v, k: x}`: the spread entries of `v` with key
`k` (re)bound to `x`. Key insertion order is abstracted; lookup semantics
are preserved. -/
def objSet (fs : List (String × Json)) (k : String) (x : Json) : List (String × Json) :=
  fs.filter (fun p => p.1 != k) ++ [(k, x)]

/-- Decimal value of a digit list. -/
def digitsToNat (cs : List Char) : Nat :=
  cs.foldl (fun acc c => acc * 10 + (c.toNat - 48)) 0

/-- JS `Number(string)` restricted to the decimal forms
`[ws] [sign] digits [. digits] [ws]` (and the empty/whitespace string,
which is 0); exponent, hex and Infinity spellings are treated as
non-numeric. `none` models NaN. -/
def jsStrToNumber (s : String) : Option ℚ :=
  let t := s.trim.toList
  match t with
  | [] => some 0
  | _ =>
    let sgn : ℚ := match t with
      | c :: _ => if c = '-' then -1 else 1
      | [] => 1
    let u : List Char := match t with
      | c :: rest => if c = '-' || c = '+' then rest else t
      | [] => []
    let intPart := u.takeWhile Char.isDigit
    let rest := u.dropWhile Char.isDigit
    match rest with
    | [] => if intPart.isEmpty then none else some (sgn * (digitsToNat intPart : ℚ))
    | c :: fracCs =>
      if c = '.' && fracCs.all Char.isDigit && !(intPart.isEmpty && fracCs.isEmpty) then
        some (sgn * ((digitsToNat intPart : ℚ) + (digitsToNat fracCs : ℚ) / (10 : ℚ) ^ fracCs.length))
      else none

/-- JS `ToNumber` applied to the string conversion of a single array
element, used for the coercion of a one-element array (`Number([v]) =
Number(String(v))`). -/
def jsCoerceElem : Json → Option ℚ
  | .null => some 0
  | .num x => some x
  | .str s => jsStrToNumber s
  | .bool _ => none
  | .arr [] => some 0
  | .arr [v] => jsCoerceElem v
  | .arr _ => none
  | .obj _ => none

/-- JS `ToNumber` of a JSON value: numbers are themselves, `null` is 0,
booleans are 0/1, strings parse as decimals, arrays coerce through their
comma-joined string form (so any array of two or more elements is NaN),
objects are NaN. `none` models NaN. -/
def jsCoerceNum : Json → Option ℚ
  | .null => some 0
  | .bool b => some (if b then 1 else 0)
  | .num x => some x
  | .str s => jsStrToNumber s
  | .arr [] => some 0
  | .arr [v] => jsCoerceElem v
  | .arr _ => none
  | .obj _ => none

/-- The test `(x ?? 0) <= 0` of the zero-balance count, where `x` is the
(possibly absent) `etherBalance` property: absent or `null` compares as 0,
anything else goes through JS numeric coercion, and NaN compares false. -/
def jsLeqZero (v : Option Json) : Bool :=
  match v with
  | none => true
  | some j =>
    match jsCoerceNum j with
    | some x => decide (x ≤ 0)
    | none => false

/-- Native-currency descriptor of a network, as read by the aggregator
(`n.nativeCurrency?.symbol`, `n.nativeCurrency?.name`). -/
structure NativeCurrency where
  symbol : String
  name : String
  decimals : Nat
deriving DecidableEq, Repr

/-- A registry entry of `Network.ALL` (external package
`@0xsequence/wallet-primitives`), restricted to the fields the aggregator
reads; `nativeCurrency` is optional because the code accesses it with
optional chaining. -/
structure Network where
  name : String
  chainId : Nat
  nativeCurrency : Option NativeCurrency
deriving DecidableEq, Repr, Inhabited

/-- The static `COINGECKO_ID_BY_SYMBOL` table (status.ts lines 3-20). -/
def COINGECKO_ID_BY_SYMBOL (sym : String) : Option String :=
  match sym with
  | "ETH" => some "ethereum"
  | "sETH" => some "ethereum"
  | "OP" => some "optimism"
  | "POL" => some "polygon-ecosystem-token"
  | "MATIC" => some "matic-network"
  | "BNB" => some "binancecoin"
  | "AVAX" => some "avalanche-2"
  | "XDAI" => some "gnosis"
  | "GLMR" => some "moonbeam"
  | "MOVR" => some "moonriver"
  | "APE" => some "apecoin"
  | "XAI" => some "xai"
  | "IMX" => some "immutable-x"
  | "XTZ" => some "tezos"
  | "OAS" => some "oasys"
  | "USDC" => some "usd-coin"
  | _ => none

/-- Per-network resolution `const sym = n.nativeCurrency?.symbol; const id =
sym ? COINGECKO_ID_BY_SYMBOL[sym] : undefined` — an empty symbol string is
falsy and resolves to no identifier. -/
def resolveCgId (n : Network) : Option String :=
  match n.nativeCurrency with
  | some nc => if nc.symbol = "" then none else COINGECKO_ID_BY_SYMBOL nc.symbol
  | none => none

/-- The `coinGeckoIdByNetworkName` record built by the resolution loop
(status.ts lines 59-66); JS record assignment overwrites, so a later
network with the same name wins. -/
def coinGeckoIdByNetworkName (networks : List Network) : List (String × Option String) :=
  networks.foldl
    (fun acc n => acc.filter (fun p => p.1 != n.name) ++ [(n.name, resolveCgId n)])
    []

/-- The `idsNeeded` insertion-ordered set built by the resolution loop:
each resolved identifier added once, in first-appearance order
(`Array.from` of a JS `Set` preserves insertion order). -/
def idsNeeded (networks : List Network) : List String :=
  networks.foldl
    (fun acc n =>
      match resolveCgId n with
      | some id => if id ∈ acc then acc else acc ++ [id]
      | none => acc)
    []

/-- Whether an HTTP status makes `res.ok` true (status in 200-299). -/
def httpOk (status : Nat) : Bool :=
  200 ≤ status && status < 300

/-- What the upstream price feed did for the one batched call: the HTTP
status, and the parsed body (`Except.error` when `res.json()` rejects,
carrying the rejection message). -/
structure PriceResp where
  status : Nat
  body : Except String Json

/-- The `usd` field of one entry of the price response, accepted only when
it is a number (`typeof v?.usd === 'number'`). -/
def usdOf (v : Json) : Option ℚ :=
  match jsGet v "usd" with
  | some (.num x) => some x
  | _ => none

/-- The `fetchUsdPrices` function (status.ts lines 22-51): an empty id set
returns an empty table without any call; a non-2xx response throws
`CoinGecko HTTP <status>` for the whole batch; otherwise every entry of
the body whose `usd` field is a number contributes a price, and the rest
are silently omitted. -/
def fetchUsdPrices (ids : List String) (resp : PriceResp) : Except String (List (String × ℚ)) :=
  if ids.isEmpty then .ok []
  else if !httpOk resp.status then .error ("CoinGecko HTTP " ++ toString resp.status)
  else
    match resp.body with
    | .error msg => .error msg
    | .ok json =>
      .ok ((spreadEntries json).filterMap (fun p => (usdOf p.2).map (fun x => (p.1, x))))

/-- The `try/catch` around the price lookup (status.ts lines 68-76): on
failure the table degrades to empty and the error message is kept. -/
def pricingResult (ids : List String) (resp : PriceResp) :
    List (String × ℚ) × Option String :=
  match fetchUsdPrices ids resp with
  | .ok t => (t, none)
  | .error m => ([], some m)

/-- The per-network USD price `coinGeckoId ? pricesUsd[coinGeckoId] ?? null
: null` — an empty identifier is falsy. -/
def usdPriceFor (prices : List (String × ℚ)) (cgId : Option String) : Option ℚ :=
  match cgId with
  | some id => if id = "" then none else prices.lookup id
  | none => none

/-- The probe URL `https://<name>-relayer.sequence.app/status` derived from
the network identifier. -/
def urlFor (n : Network) : String :=
  "https://" ++ n.name ++ "-relayer.sequence.app/status"

/-- The native balance of a sender entry, present only when the
`etherBalance` property exists and is a number
(`typeof s?.etherBalance === 'number'`). -/
def ethBal (s : Json) : Option ℚ :=
  match jsGet s "etherBalance" with
  | some (.num x) => some x
  | _ => none

/-- The raw sender list `Array.isArray(jsonRaw?.senders) ? jsonRaw.senders
: []`: anything other than an array-valued `senders` property of an object
payload gives the empty list. -/
def sendersOf (jsonRaw : Json) : List Json :=
  match jsGet jsonRaw "senders" with
  | some (.arr l) => l
  | _ => []

/-- Enrichment of one sender (status.ts lines 119-125): a shallow copy with
`usdValue` bound to balance times price when the price is known (an absent
or non-numeric balance counts as 0), and to `null` when it is not. -/
def enrichSender (usdPrice : Option ℚ) (s : Json) : Json :=
  Json.obj (objSet (spreadEntries s) "usdValue"
    (match usdPrice with
     | some q => Json.num ((ethBal s).getD 0 * q)
     | none => Json.null))

/-- The enriched sender list of a successful probe. -/
def enrichedSenders (usdPrice : Option ℚ) (jsonRaw : Json) : List Json :=
  (sendersOf jsonRaw).map (enrichSender usdPrice)

/-- `totalNative` (status.ts lines 127-130): sum over the enriched senders
of the numeric `etherBalance`, absent or non-numeric entries counting 0. -/
def totalNative (es : List Json) : ℚ :=
  es.foldl (fun acc s => acc + (ethBal s).getD 0) 0

/-- `minNative` (status.ts lines 132-134): `Math.min` over the effective
balances when the enriched list is nonempty, `null` when it is empty. -/
def minNative (es : List Json) : Option ℚ :=
  match es.map (fun s => (ethBal s).getD 0) with
  | [] => none
  | b :: bs => some (bs.foldl min b)

/-- `zeroCount` (status.ts line 136): the number of enriched senders whose
`etherBalance ?? 0` compares `<= 0` under JS coercion. -/
def zeroCount (es : List Json) : Nat :=
  es.foldl (fun acc s => acc + (if jsLeqZero (jsGet s "etherBalance") then 1 else 0)) 0

/-- The per-network rollup of a successful probe. -/
structure Summary where
  senderCount : Nat
  zeroCount : Nat
  totalNative : ℚ
  totalUsd : Option ℚ
  minNative : Option ℚ
  minUsd : Option ℚ
deriving Repr

/-- The summary computed by the worker for a successful probe. -/
def mkSummary (usdPrice : Option ℚ) (jsonRaw : Json) : Summary :=
  let es := enrichedSenders usdPrice jsonRaw
  { senderCount := es.length
    zeroCount := zeroCount es
    totalNative := totalNative es
    totalUsd := usdPrice.map (fun p => totalNative es * p)
    minNative := minNative es
    minUsd :=
      match usdPrice, minNative es with
      | some p, some m => some (m * p)
      | _, _ => none }

/-- The base object spread into the enriched payload:
`typeof jsonRaw === 'object' && jsonRaw ? jsonRaw : {}` — objects and
arrays spread their entries, everything else (including `null`) spreads
nothing. -/
def dataEntriesBase (jsonRaw : Json) : List (String × Json) :=
  match jsonRaw with
  | .obj fs => fs
  | .arr l => spreadEntries (.arr l)
  | _ => []

/-- The enriched payload `{...jsonRaw, senders: enrichedSenders}`
(status.ts lines 138-141). -/
def enrichedData (usdPrice : Option ℚ) (jsonRaw : Json) : Json :=
  Json.obj (objSet (dataEntriesBase jsonRaw) "senders"
    (Json.arr (enrichedSenders usdPrice jsonRaw)))

/-- The `nativeToken` record attached to every outcome. -/
structure NativeToken where
  symbol : Option String
  name : Option String
  coinGeckoId : Option String
  usdPrice : Option ℚ
deriving Repr

/-- One `NetworkOutcome` as written into `results[idx]`; `error` is present
exactly on the failure branches, `data` and `summary` exactly on the
success branch. -/
structure Outcome where
  network : Network
  url : String
  ok : Bool
  status : Nat
  error : Option String
  nativeToken : NativeToken
  data : Option Json
  summary : Option Summary

/-- What the remote did for one probe: a transport fault with no response
(the `fetch` promise rejected), or a response with an HTTP status and a
body whose parse may itself reject (`res.json()` throwing lands in the
same `catch` as a transport fault). -/
inductive ProbeResp where
  | fault (msg : String)
  | http (status : Nat) (body : Except String Json)

/-- The `nativeToken` value the worker builds for network `n`. -/
def mkNativeToken (n : Network) (cgId : Option String) (usdPrice : Option ℚ) : NativeToken :=
  { symbol := n.nativeCurrency.map NativeCurrency.symbol
    name := n.nativeCurrency.map NativeCurrency.name
    coinGeckoId := cgId
    usdPrice := usdPrice }

/-- One iteration of the worker body after claiming network `n` (status.ts
lines 87-178): a non-2xx response is recorded as a failure carrying the
status and the text `HTTP <status>` without parsing the body; a transport
fault or body-parse rejection is recorded as a failure with status 0 and
the fault message; a parsed 2xx response is enriched and summarised. -/
def probeOutcome (n : Network) (cgId : Option String) (usdPrice : Option ℚ)
    (resp : ProbeResp) : Outcome :=
  let url := urlFor n
  let ntok := mkNativeToken n cgId usdPrice
  match resp with
  | .fault msg =>
    { network := n, url := url, ok := false, status := 0, error := some msg
      nativeToken := ntok, data := none, summary := none }
  | .http status body =>
    if !httpOk status then
      { network := n, url := url, ok := false, status := status
        error := some ("HTTP " ++ toString status)
        nativeToken := ntok, data := none, summary := none }
    else
      match body with
      | .error msg =>
        { network := n, url := url, ok := false, status := 0, error := some msg
          nativeToken := ntok, data := none, summary := none }
      | .ok jsonRaw =>
        { network := n, url := url, ok := true, status := status, error := none
          nativeToken := ntok
          data := some (enrichedData usdPrice jsonRaw)
          summary := some (mkSummary usdPrice jsonRaw) }

/-- The fixed worker-pool size `const concurrency = 12` (status.ts line 79). -/
def concurrency : Nat := 12

/-- The control point of one worker of the pool: at the top of its `while`
loop not yet started, suspended on the probe of a claimed index, or
returned. -/
inductive WStat where
  | idle
  | inflight (idx : Nat)
  | done
deriving DecidableEq, Repr

instance : BEq WStat := instBEqOfDecidableEq

/-- The shared state of the fan-out (status.ts lines 79-81): the claim
cursor `i`, the `results` array (initially empty, written by index, JS
arrays growing as needed), the pool of workers, and an instrumentation
counter of how many probes have been started per network index. -/
structure PoolState (α : Type) where
  cursor : Nat
  results : List (Option α)
  workers : List WStat
  probes : List Nat

/-- JS array assignment `a[idx] = v`: in-range writes update the slot,
out-of-range writes extend the array with holes up to `idx`. -/
def jsSet {α : Type} (rs : List (Option α)) (idx : Nat) (v : α) : List (Option α) :=
  if idx < rs.length then rs.set idx (some v)
  else rs ++ List.replicate (idx - rs.length) none ++ [some v]

/-- Read of slot `idx` of a sparse JS array (`undefined` past the end or
on a hole). -/
def getSparse {α : Type} (rs : List (Option α)) (idx : Nat) : Option α :=
  (rs[idx]?).join

/-- The synchronous tail of a worker iteration: `while (i < networks.length)
{ const idx = i++; ... }` — claim the cursor (counting the probe it starts)
or fall out of the loop. -/
def claimOrExit {α : Type} (n : Nat) (st : PoolState α) (j : Nat) : PoolState α :=
  if st.cursor < n then
    { st with
      cursor := st.cursor + 1
      workers := st.workers.set j (.inflight st.cursor)
      probes := st.probes.set st.cursor (st.probes.getD st.cursor 0 + 1) }
  else
    { st with workers := st.workers.set j .done }

/-- One scheduler step for worker `j`: an idle worker runs to its first
suspension (claiming or exiting); a suspended worker resumes, writes the
outcome of its claimed index into its exclusively-owned slot and claims
again or exits. `f idx` is the outcome the worker computes for index `idx`
(its probe response and enrichment); scheduling a finished or nonexistent
worker does nothing. -/
def stepWorker {α : Type} (n : Nat) (f : Nat → α) (st : PoolState α) (j : Nat) :
    PoolState α :=
  match st.workers[j]? with
  | some .idle => claimOrExit n st j
  | some (.inflight idx) =>
    claimOrExit n { st with results := jsSet st.results idx (f idx) } j
  | _ => st

/-- The pool state right after `Array.from({ length: concurrency }, () =>
worker())` has created the workers and before any of them runs: cursor 0,
`results` the empty array, `concurrency` idle workers, no probe started. -/
def initState (α : Type) (n : Nat) : PoolState α :=
  { cursor := 0
    results := []
    workers := List.replicate concurrency .idle
    probes := List.replicate n 0 }

/-- Execution of the pool under an arbitrary schedule: the cooperative
runtime picks which worker advances at each step. -/
def runPool {α : Type} (n : Nat) (f : Nat → α) (sched : List Nat) : PoolState α :=
  sched.foldl (stepWorker n f) (initState α n)

/-- Whether `Promise.all` has resolved: every worker has returned. -/
def allDone {α : Type} (st : PoolState α) : Bool :=
  st.workers.all (fun x => decide (x = WStat.done))

theorem jsSet_length {α : Type} (rs : List (Option α)) (idx : Nat) (v : α) :
    (jsSet rs idx v).length = max rs.length (idx + 1) := by
  unfold jsSet
  split
  · rw [List.length_set]
    omega
  · simp only [List.length_append, List.length_replicate, List.length_cons,
      List.length_nil]
    omega

theorem getSparse_jsSet_self {α : Type} (rs : List (Option α)) (idx : Nat) (v : α) :
    getSparse (jsSet rs idx v) idx = some v := by
  unfold jsSet getSparse
  split
  · rename_i h
    rw [List.getElem?_set_self h]
    rfl
  · rename_i h
    push_neg at h
    have hlen : (rs ++ List.replicate (idx - rs.length) (none : Option α)).length = idx := by
      simp only [List.length_append, List.length_replicate]
      omega
    rw [List.getElem?_append_right (le_of_eq hlen), hlen, Nat.sub_self]
    rfl

theorem getSparse_jsSet_ne {α : Type} (rs : List (Option α)) (idx i : Nat) (v : α)
    (h : i ≠ idx) : getSparse (jsSet rs idx v) i = getSparse rs i := by
  unfold jsSet getSparse
  split
  · rename_i hlt
    rw [List.getElem?_set_ne (Ne.symm h)]
  · rename_i hlt
    push_neg at hlt
    have hlen : (rs ++ List.replicate (idx - rs.length) (none : Option α)).length = idx := by
      simp only [List.length_append, List.length_replicate]
      omega
    by_cases hi : i < rs.length
    · rw [List.getElem?_append, if_pos (by omega), List.getElem?_append, if_pos hi]
    · push_neg at hi
      rw [List.getElem?_eq_none hi]
      by_cases h2 : i < idx
      · rw [List.getElem?_append, if_pos (by omega), List.getElem?_append,
          if_neg (by omega), List.getElem?_replicate, if_pos (by omega)]
        rfl
      · have h3 : ((rs ++ List.replicate (idx - rs.length) none) ++ [some v]).length ≤ i := by
          simp only [List.length_append, List.length_replicate, List.length_cons,
            List.length_nil]
          omega
        rw [List.getElem?_eq_none h3]

theorem lt_length_of_getSparse {α : Type} {rs : List (Option α)} {idx : Nat} {o : α}
    (h : getSparse rs idx = some o) : idx < rs.length := by
  by_contra hc
  push_neg at hc
  rw [getSparse, List.getElem?_eq_none hc] at h
  simp [Option.join] at h

theorem getD_set_self (ps : List Nat) (i : Nat) (x : Nat) (h : i < ps.length) :
    (ps.set i x).getD i 0 = x := by
  rw [List.getD_eq_getElem?_getD, List.getElem?_set_self h]
  rfl

theorem getD_set_ne (ps : List Nat) (i k : Nat) (x : Nat) (h : i ≠ k) :
    (ps.set i x).getD k 0 = ps.getD k 0 := by
  rw [List.getD_eq_getElem?_getD, List.getElem?_set_ne h, ← List.getD_eq_getElem?_getD]

/-- The inductive invariant of the fan-out: the cursor never passes the
registry length; the pool always has `concurrency` workers; indices below
the cursor have been probed exactly once, indices at or above it not at
all; every claimed index is either held by a suspended worker or already
written with its own outcome; a slot is only ever written with the outcome
of its own index; the result array never outgrows the cursor; and a worker
only exits once the cursor has reached the end. -/
structure Inv {α : Type} (n : Nat) (f : Nat → α) (st : PoolState α) : Prop where
  cursor_le : st.cursor ≤ n
  workers_len : st.workers.length = concurrency
  probes_len : st.probes.length = n
  probes_one : ∀ idx, idx < st.cursor → st.probes.getD idx 0 = 1
  probes_zero : ∀ idx, st.cursor ≤ idx → st.probes.getD idx 0 = 0
  covered : ∀ idx, idx < st.cursor →
    WStat.inflight idx ∈ st.workers ∨ getSparse st.results idx = some (f idx)
  inflight_lt : ∀ idx, WStat.inflight idx ∈ st.workers → idx < st.cursor
  results_val : ∀ idx o, getSparse st.results idx = some o → o = f idx
  results_len : st.results.length ≤ st.cursor
  done_cursor : WStat.done ∈ st.workers → n ≤ st.cursor

/-- The invariant with the coverage witnesses known to avoid worker `j`,
the worker about to be rescheduled by `claimOrExit`. -/
structure PreClaim {α : Type} (n : Nat) (f : Nat → α) (st : PoolState α) (j : Nat) : Prop where
  cursor_le : st.cursor ≤ n
  workers_len : st.workers.length = concurrency
  probes_len : st.probes.length = n
  probes_one : ∀ idx, idx < st.cursor → st.probes.getD idx 0 = 1
  probes_zero : ∀ idx, st.cursor ≤ idx → st.probes.getD idx 0 = 0
  covered_j : ∀ idx, idx < st.cursor →
    (∃ k, k ≠ j ∧ st.workers[k]? = some (WStat.inflight idx)) ∨
      getSparse st.results idx = some (f idx)
  inflight_lt : ∀ idx, WStat.inflight idx ∈ st.workers → idx < st.cursor
  results_val : ∀ idx o, getSparse st.results idx = some o → o = f idx
  results_len : st.results.length ≤ st.cursor
  done_cursor : WStat.done ∈ st.workers → n ≤ st.cursor

theorem inv_claimOrExit {α : Type} {n : Nat} {f : Nat → α} {st : PoolState α} {j : Nat}
    (hj : j < st.workers.length) (h : PreClaim n f st j) :
    Inv n f (claimOrExit n st j) := by
  unfold claimOrExit
  split
  · rename_i hlt
    refine { cursor_le := hlt, workers_len := ?_, probes_len := ?_, probes_one := ?_,
             probes_zero := ?_, covered := ?_, inflight_lt := ?_, results_val := ?_,
             results_len := ?_, done_cursor := ?_ }
    · rw [List.length_set]
      exact h.workers_len
    · rw [List.length_set]
      exact h.probes_len
    · dsimp only
      intro idx hidx
      rcases Nat.lt_succ_iff_lt_or_eq.1 hidx with h1 | h1
      · rw [getD_set_ne st.probes st.cursor idx _ (by omega)]
        exact h.probes_one idx h1
      · subst h1
        rw [getD_set_self st.probes st.cursor _ (by rw [h.probes_len]; exact hlt),
          h.probes_zero st.cursor (le_refl _)]
    · dsimp only
      intro idx hidx
      rw [getD_set_ne st.probes st.cursor idx _ (by omega)]
      exact h.probes_zero idx (by omega)
    · dsimp only
      intro idx hidx
      rcases Nat.lt_succ_iff_lt_or_eq.1 hidx with h1 | h1
      · rcases h.covered_j idx h1 with ⟨k, hk, hw⟩ | hr
        · left
          refine List.mem_iff_getElem?.2 ⟨k, ?_⟩
          rw [List.getElem?_set_ne (Ne.symm hk)]
          exact hw
        · right
          exact hr
      · subst h1
        left
        exact List.mem_iff_getElem?.2 ⟨j, List.getElem?_set_self hj⟩
    · dsimp only
      intro idx hmem
      obtain ⟨k, hk⟩ := List.mem_iff_getElem?.1 hmem
      by_cases hkj : k = j
      · subst hkj
        rw [List.getElem?_set_self hj] at hk
        simp only [Option.some.injEq, WStat.inflight.injEq] at hk
        omega
      · rw [List.getElem?_set_ne (Ne.symm hkj)] at hk
        have := h.inflight_lt idx (List.mem_iff_getElem?.2 ⟨k, hk⟩)
        omega
    · exact h.results_val
    · exact Nat.le_succ_of_le h.results_len
    · dsimp only
      intro hmem
      obtain ⟨k, hk⟩ := List.mem_iff_getElem?.1 hmem
      by_cases hkj : k = j
      · subst hkj
        rw [List.getElem?_set_self hj] at hk
        simp at hk
      · rw [List.getElem?_set_ne (Ne.symm hkj)] at hk
        have := h.done_cursor (List.mem_iff_getElem?.2 ⟨k, hk⟩)
        omega
  · rename_i hge
    push_neg at hge
    refine { cursor_le := h.cursor_le, workers_len := ?_, probes_len := h.probes_len,
             probes_one := h.probes_one, probes_zero := h.probes_zero, covered := ?_,
             inflight_lt := ?_, results_val := h.results_val,
             results_len := h.results_len, done_cursor := ?_ }
    · rw [List.length_set]
      exact h.workers_len
    · intro idx hidx
      rcases h.covered_j idx hidx with ⟨k, hk, hw⟩ | hr
      · left
        refine List.mem_iff_getElem?.2 ⟨k, ?_⟩
        rw [List.getElem?_set_ne (Ne.symm hk)]
        exact hw
      · right
        exact hr
    · intro idx hmem
      obtain ⟨k, hk⟩ := List.mem_iff_getElem?.1 hmem
      by_cases hkj : k = j
      · subst hkj
        rw [List.getElem?_set_self hj] at hk
        simp at hk
      · rw [List.getElem?_set_ne (Ne.symm hkj)] at hk
        exact h.inflight_lt idx (List.mem_iff_getElem?.2 ⟨k, hk⟩)
    · intro _
      exact hge

theorem inv_step {α : Type} {n : Nat} {f : Nat → α} {st : PoolState α}
    (hinv : Inv n f st) (j : Nat) : Inv n f (stepWorker n f st j) := by
  unfold stepWorker
  split
  · rename_i hw
    have hj : j < st.workers.length := (List.getElem?_eq_some.1 hw).1
    refine inv_claimOrExit hj
      { cursor_le := hinv.cursor_le, workers_len := hinv.workers_len,
        probes_len := hinv.probes_len, probes_one := hinv.probes_one,
        probes_zero := hinv.probes_zero, covered_j := ?_,
        inflight_lt := hinv.inflight_lt, results_val := hinv.results_val,
        results_len := hinv.results_len, done_cursor := hinv.done_cursor }
    intro idx hidx
    rcases hinv.covered idx hidx with hm | hr
    · left
      obtain ⟨k, hk⟩ := List.mem_iff_getElem?.1 hm
      refine ⟨k, ?_, hk⟩
      intro hkj
      subst hkj
      rw [hw] at hk
      simp at hk
    · right
      exact hr
  · rename_i idx0 hw
    have hj : j < st.workers.length := (List.getElem?_eq_some.1 hw).1
    have hidx0 : idx0 < st.cursor :=
      hinv.inflight_lt idx0 (List.mem_iff_getElem?.2 ⟨j, hw⟩)
    refine @inv_claimOrExit α n f
      { st with results := jsSet st.results idx0 (f idx0) } j hj
      { cursor_le := hinv.cursor_le, workers_len := hinv.workers_len,
        probes_len := hinv.probes_len, probes_one := hinv.probes_one,
        probes_zero := hinv.probes_zero, covered_j := ?_,
        inflight_lt := hinv.inflight_lt, results_val := ?_,
        results_len := ?_, done_cursor := hinv.done_cursor }
    · intro idx hidx
      by_cases hii : idx = idx0
      · subst hii
        right
        exact getSparse_jsSet_self st.results idx (f idx)
      · rcases hinv.covered idx hidx with hm | hr
        · left
          obtain ⟨k, hk⟩ := List.mem_iff_getElem?.1 hm
          refine ⟨k, ?_, hk⟩
          intro hkj
          subst hkj
          rw [hw] at hk
          simp only [Option.some.injEq, WStat.inflight.injEq] at hk
          exact hii hk.symm
        · right
          rw [getSparse_jsSet_ne _ _ _ _ hii]
          exact hr
    · intro idx o hr
      by_cases hii : idx = idx0
      · subst hii
        rw [getSparse_jsSet_self] at hr
        exact (Option.some.injEq _ _ ▸ hr).symm
      · rw [getSparse_jsSet_ne _ _ _ _ hii] at hr
        exact hinv.results_val idx o hr
    · show (jsSet st.results idx0 (f idx0)).length ≤ st.cursor
      rw [jsSet_length]
      exact Nat.max_le.2 ⟨hinv.results_len, hidx0⟩
  · exact hinv

theorem inv_foldl {α : Type} {n : Nat} {f : Nat → α} (sched : List Nat)
    {st : PoolState α} (h : Inv n f st) :
    Inv n f (sched.foldl (stepWorker n f) st) := by
  induction sched generalizing st with
  | nil => exact h
  | cons a l ih => exact ih (inv_step h a)

theorem inv_init {α : Type} (n : Nat) (f : Nat → α) : Inv n f (initState α n) := by
  refine { cursor_le := Nat.zero_le n, workers_len := ?_, probes_len := ?_,
           probes_one := ?_, probes_zero := ?_, covered := ?_, inflight_lt := ?_,
           results_val := ?_, results_len := Nat.le_refl 0, done_cursor := ?_ }
  · exact List.length_replicate concurrency WStat.idle
  · exact List.length_replicate n 0
  · intro idx hidx
    exact absurd hidx (Nat.not_lt_zero idx)
  · intro idx _
    rw [List.getD_eq_getElem?_getD]
    show (List.replicate n 0)[idx]?.getD 0 = 0
    rw [List.getElem?_replicate]
    split <;> rfl
  · intro idx hidx
    exact absurd hidx (Nat.not_lt_zero idx)
  · intro idx hmem
    have := List.eq_of_mem_replicate hmem
    simp at this
  · intro idx o hr
    simp [getSparse, initState] at hr
  · intro hmem
    have := List.eq_of_mem_replicate hmem
    simp at this

theorem inv_runPool {α : Type} (n : Nat) (f : Nat → α) (sched : List Nat) :
    Inv n f (runPool n f sched) :=
  inv_foldl sched (inv_init n f)

/-- What holds of the pool state once `Promise.all` has resolved: the
cursor sits exactly at the registry length, the result array has exactly
one slot per network, slot `idx` holds the outcome of index `idx`, and
every index was probed exactly once. -/
theorem final_state {α : Type} {n : Nat} {f : Nat → α} {st : PoolState α}
    (hinv : Inv n f st) (hdone : allDone st = true) :
    st.cursor = n ∧ st.results.length = n ∧
    (∀ idx, idx < n → getSparse st.results idx = some (f idx)) ∧
    (∀ idx, idx < n → st.probes.getD idx 0 = 1) := by
  have hall : ∀ x ∈ st.workers, x = WStat.done := by
    intro x hx
    exact of_decide_eq_true (List.all_eq_true.1 hdone x hx)
  have hne : st.workers ≠ [] := by
    intro hnil
    have := hinv.workers_len
    rw [hnil] at this
    simp [concurrency] at this
  obtain ⟨x, hx⟩ := List.exists_mem_of_ne_nil st.workers hne
  have hw0 : WStat.done ∈ st.workers := hall x hx ▸ hx
  have hceq : st.cursor = n := le_antisymm hinv.cursor_le (hinv.done_cursor hw0)
  have hwrit : ∀ idx, idx < n → getSparse st.results idx = some (f idx) := by
    intro idx hidx
    rcases hinv.covered idx (hceq ▸ hidx) with hm | hr
    · have := hall _ hm
      simp at this
    · exact hr
  refine ⟨hceq, ?_, hwrit, fun idx hidx => hinv.probes_one idx (hceq ▸ hidx)⟩
  rcases Nat.eq_zero_or_pos n with h0 | hpos
  · subst h0
    have := hinv.results_len
    omega
  · have hlast := hwrit (n - 1) (by omega)
    have h1 : n - 1 < st.results.length := lt_length_of_getSparse hlast
    have h2 := hinv.results_len
    omega

/-- The pricing metadata of the snapshot (status.ts lines 187-192). -/
structure Pricing where
  apiKeyPresent : Bool
  idsRequested : List String
  idsPriced : List String
  error : Option String
deriving Repr

/-- The assembled snapshot body (status.ts lines 185-195), minus the
generation timestamp, which is wall-clock time and outside the model.
`results` keeps its sparse-array representation so that `count ==
results.length` is the real JS array length. -/
structure Snapshot where
  pricing : Pricing
  count : Nat
  results : List (Option Outcome)

/-- The credential-presence flag `!!apiKey` (an empty string is falsy). -/
def apiKeyPresentFlag (apiKey : Option String) : Bool :=
  match apiKey with
  | some s => s != ""
  | none => false

/-- The outcome a worker computes for index `idx` once it has claimed it:
the registry network at that index, its identifier resolved through the
`coinGeckoIdByNetworkName` record, its price looked up in the price table,
and the probe response for that index. -/
def outcomeFor (networks : List Network) (prices : List (String × ℚ))
    (probeResps : Nat → ProbeResp) (idx : Nat) : Outcome :=
  let n := networks.getD idx default
  let cgId := ((coinGeckoIdByNetworkName networks).lookup n.name).join
  probeOutcome n cgId (usdPriceFor prices cgId) (probeResps idx)

/-- The pool state after the fan-out has run under schedule `sched`, with
the price table already resolved from the price response. -/
def poolOf (networks : List Network) (priceResp : PriceResp)
    (probeResps : Nat → ProbeResp) (sched : List Nat) : PoolState Outcome :=
  runPool networks.length
    (outcomeFor networks (pricingResult (idsNeeded networks) priceResp).1 probeResps)
    sched

/-- The whole `onRequest` pipeline (status.ts lines 53-204) as a function
of the registry, the credential, the price-feed response, the per-network
probe responses and the scheduling of the worker pool: resolve
identifiers, fetch prices with non-fatal failure, fan out, assemble. -/
def snapshot (networks : List Network) (apiKey : Option String)
    (priceResp : PriceResp) (probeResps : Nat → ProbeResp) (sched : List Nat) :
    Snapshot :=
  let ids := idsNeeded networks
  let pr := pricingResult ids priceResp
  let st := poolOf networks priceResp probeResps sched
  { pricing :=
      { apiKeyPresent := apiKeyPresentFlag apiKey
        idsRequested := ids
        idsPriced := pr.1.map Prod.fst
        error := pr.2 }
    count := st.results.length
    results := st.results }

theorem lookup_filter_ne_self (fs : List (String × Json)) (k : String) :
    (fs.filter (fun p => p.1 != k)).lookup k = none := by
  induction fs with
  | nil => rfl
  | cons a l ih =>
    rw [List.filter_cons]
    by_cases ha : a.1 = k
    · rw [if_neg (by simp [ha])]
      exact ih
    · rw [if_pos (by simpa using ha)]
      have : (k == a.1) = false := beq_eq_false_iff_ne.2 (Ne.symm ha)
      cases a with
      | mk a1 a2 =>
        rw [List.lookup_cons]
        simp only at this
        rw [this]
        exact ih

theorem lookup_filter_ne_other (fs : List (String × Json)) (k k2 : String)
    (h : k2 ≠ k) : (fs.filter (fun p => p.1 != k)).lookup k2 = fs.lookup k2 := by
  induction fs with
  | nil => rfl
  | cons a l ih =>
    rw [List.filter_cons]
    by_cases ha : a.1 = k
    · rw [if_neg (by simp [ha])]
      cases a with
      | mk a1 a2 =>
        rw [List.lookup_cons]
        have : (k2 == a1) = false := beq_eq_false_iff_ne.2 (by simp only at ha; rw [ha]; exact h)
        rw [this]
        exact ih
    · rw [if_pos (by simpa using ha)]
      cases a with
      | mk a1 a2 =>
        rw [List.lookup_cons, List.lookup_cons]
        cases hbeq : (k2 == a1) with
        | true => rfl
        | false => exact ih

theorem lookup_objSet_self (fs : List (String × Json)) (k : String) (v : Json) :
    (objSet fs k v).lookup k = some v := by
  unfold objSet
  rw [List.lookup_append, lookup_filter_ne_self]
  simp [List.lookup_cons]

theorem lookup_objSet_ne (fs : List (String × Json)) (k : String) (v : Json)
    (k2 : String) (h : k2 ≠ k) : (objSet fs k v).lookup k2 = fs.lookup k2 := by
  unfold objSet
  rw [List.lookup_append, lookup_filter_ne_other fs k k2 h]
  have : ([(k, v)].lookup k2) = none := by
    rw [List.lookup_cons]
    rw [beq_eq_false_iff_ne.2 h]
    rfl
  rw [this, Option.or_none]

theorem foldl_min_le_init (b : ℚ) (bs : List ℚ) : bs.foldl min b ≤ b := by
  induction bs generalizing b with
  | nil => exact le_refl b
  | cons c l ih => exact le_trans (ih (min b c)) (min_le_left b c)

theorem foldl_min_le_mem (b : ℚ) (bs : List ℚ) : ∀ x ∈ bs, bs.foldl min b ≤ x := by
  induction bs generalizing b with
  | nil => intro x hx; cases hx
  | cons c l ih =>
    intro x hx
    rcases List.mem_cons.1 hx with h1 | h1
    · subst h1
      exact le_trans (foldl_min_le_init (min b x) l) (min_le_right b x)
    · exact ih (min b c) x h1

theorem foldl_min_mem (b : ℚ) (bs : List ℚ) : bs.foldl min b ∈ b :: bs := by
  induction bs generalizing b with
  | nil => exact List.mem_singleton.2 rfl
  | cons c l ih =>
    have h := ih (min b c)
    rcases List.mem_cons.1 h with h1 | h1
    · rcases min_choice b c with h2 | h2
      · rw [List.foldl_cons, h1, h2]
        exact List.mem_cons_self b (c :: l)
      · rw [List.foldl_cons, h1, h2]
        exact List.mem_cons.2 (Or.inr (List.mem_cons_self c l))
    · exact List.mem_cons.2 (Or.inr (List.mem_cons.2 (Or.inr h1)))

theorem probeOutcome_http_ok (n : Network) (cgId : Option String) (p : Option ℚ)
    (status : Nat) (jsonRaw : Json) (hok : httpOk status = true) :
    probeOutcome n cgId p (ProbeResp.http status (Except.ok jsonRaw)) =
      { network := n, url := urlFor n, ok := true, status := status, error := none
        nativeToken := mkNativeToken n cgId p
        data := some (enrichedData p jsonRaw)
        summary := some (mkSummary p jsonRaw) } := by
  unfold probeOutcome
  dsimp only
  rw [hok]
  rfl

theorem usdPriceFor_nil (cgId : Option String) : usdPriceFor [] cgId = none := by
  cases cgId with
  | none => rfl
  | some id =>
    show (if id = "" then none else List.lookup id ([] : List (String × ℚ))) = none
    split <;> rfl

theorem probeOutcome_network (n : Network) (cgId : Option String) (p : Option ℚ)
    (resp : ProbeResp) : (probeOutcome n cgId p resp).network = n := by
  unfold probeOutcome
  cases resp with
  | fault msg => rfl
  | http status body =>
    dsimp only
    split
    · rfl
    · cases body <;> rfl

theorem probeOutcome_nativeToken (n : Network) (cgId : Option String) (p : Option ℚ)
    (resp : ProbeResp) :
    (probeOutcome n cgId p resp).nativeToken = mkNativeToken n cgId p := by
  unfold probeOutcome
  cases resp with
  | fault msg => rfl
  | http status body =>
    dsimp only
    split
    · rfl
    · cases body <;> rfl

theorem outcomeFor_network (networks : List Network) (prices : List (String × ℚ))
    (probeResps : Nat → ProbeResp) (idx : Nat) :
    (outcomeFor networks prices probeResps idx).network = networks.getD idx default := by
  unfold outcomeFor
  exact probeOutcome_network _ _ _ _

theorem enrichSender_none_usdValue (s : Json) :
    jsGet (enrichSender none s) "usdValue" = some Json.null := by
  show (objSet (spreadEntries s) "usdValue" Json.null).lookup "usdValue" = some Json.null
  exact lookup_objSet_self _ _ _

theorem enrichSender_some_usdValue (q : ℚ) (s : Json) :
    jsGet (enrichSender (some q) s) "usdValue" =
      some (Json.num ((ethBal s).getD 0 * q)) := by
  show (objSet (spreadEntries s) "usdValue" (Json.num ((ethBal s).getD 0 * q))).lookup
      "usdValue" = some (Json.num ((ethBal s).getD 0 * q))
  exact lookup_objSet_self _ _ _

theorem mkSummary_none_usd (jsonRaw : Json) :
    (mkSummary none jsonRaw).totalUsd = none ∧ (mkSummary none jsonRaw).minUsd = none := by
  unfold mkSummary
  exact ⟨rfl, rfl⟩

/-- A two-entry test registry for concrete evaluations of the pipeline. -/
def wNet : Network :=
  { name := "e", chainId := 1,
    nativeCurrency := some { symbol := "ETH", name := "Ether", decimals := 18 } }

def wNet2 : Network :=
  { name := "f", chainId := 2,
    nativeCurrency := some { symbol := "XTZ", name := "Tez", decimals := 6 } }

/-- A schedule that drives every worker to completion for registries of at
most two networks: each of the 12 workers starts once, then the two
suspended probes resume. -/
def wSched : List Nat := [0, 1, 2, 3, 4, 5, 6, 7, 8, 9, 10, 11, 0, 1]

/-- A healthy probe response: HTTP 200 with one funded sender. -/
def wProbe : Nat → ProbeResp := fun _ =>
  ProbeResp.http 200 (Except.ok (Json.obj
    [("senders", Json.arr
        [Json.obj [("address", Json.str "0x1"), ("etherBalance", Json.num 1)]]),
     ("healthOK", Json.bool true)]))

/-- A successful price-feed response quoting ethereum at 2000 USD. -/
def wPriceResp : PriceResp :=
  { status := 200,
    body := Except.ok (Json.obj [("ethereum", Json.obj [("usd", Json.num 2000)])]) }

/-- A failing price-feed response (HTTP 500). -/
def wPriceRespBad : PriceResp := { status := 500, body := Except.error "x" }

/-- C1: for every snapshot whose fan-out completed (under any schedule, so
regardless of the order in which probes complete), the outcome list has
exactly one entry per registry network — its length equals the registry
length and slot `i` holds the outcome whose `network` is registry entry
`i` — and the snapshot's `count` field equals the length of the outcome
list. -/
theorem snapshot_outcome_per_registry_network
    (networks : List Network) (apiKey : Option String) (priceResp : PriceResp)
    (probeResps : Nat → ProbeResp) (sched : List Nat)
    (hdone : allDone (poolOf networks priceResp probeResps sched) = true) :
    (snapshot networks apiKey priceResp probeResps sched).count =
      (snapshot networks apiKey priceResp probeResps sched).results.length ∧
    (snapshot networks apiKey priceResp probeResps sched).results.length =
      networks.length ∧
    ∀ i, ∀ hi : i < networks.length,
      ∃ o, getSparse (snapshot networks apiKey priceResp probeResps sched).results i =
          some o ∧ o.network = networks[i] := by
  have hinv := inv_runPool networks.length
    (outcomeFor networks (pricingResult (idsNeeded networks) priceResp).1 probeResps)
    sched
  have hfin := final_state hinv hdone
  refine ⟨rfl, hfin.2.1, ?_⟩
  intro i hi
  refine ⟨_, hfin.2.2.1 i hi, ?_⟩
  rw [outcomeFor_network, List.getD_eq_getElem?_getD, List.getElem?_eq_getElem hi]
  rfl

/-- C1 witness: with the two-network test registry, a healthy price feed
and healthy probes, the completed snapshot has two result slots and slot 0
belongs to the first registry network. -/
theorem snapshot_outcome_per_registry_network_witness :
    (snapshot [wNet, wNet2] none wPriceResp wProbe wSched).results.length = 2 ∧
    ∃ o, getSparse (snapshot [wNet, wNet2] none wPriceResp wProbe wSched).results 0 =
        some o ∧ o.network = wNet :=
  ⟨(snapshot_outcome_per_registry_network [wNet, wNet2] none wPriceResp wProbe wSched
      (by decide)).2.1,
   (snapshot_outcome_per_registry_network [wNet, wNet2] none wPriceResp wProbe wSched
      (by decide)).2.2 0 (by decide)⟩

/-- C2 counterexample: the code spawns `concurrency = 12` workers via
`Array.from({ length: concurrency }, () => worker())` regardless of the
network count, so for a one-network registry the number of spawned workers
is 12, not `min(poolSize, networkCount) = 1`. -/
theorem spawned_workers_ne_min :
    ¬ ((initState Outcome 1).workers.length = min concurrency 1) := by
  decide

/-- C2 amended: the fan-out spawns exactly `concurrency` (12) workers over
the shared cursor regardless of the network count (workers that find the
cursor already past the end exit without probing); whenever the pool
completes, the cursor has passed the end of the network list and every
network index was claimed and probed exactly once. -/
theorem pool_fixed_spawn_unique_claims {α : Type} (n : Nat) (f : Nat → α)
    (sched : List Nat) (hdone : allDone (runPool n f sched) = true) :
    (initState α n).workers.length = concurrency ∧
    (runPool n f sched).workers.length = concurrency ∧
    (runPool n f sched).cursor = n ∧
    ∀ idx, idx < n → (runPool n f sched).probes.getD idx 0 = 1 := by
  have hinv := inv_runPool n f sched
  have hfin := final_state hinv hdone
  exact ⟨List.length_replicate _ _, hinv.workers_len, hfin.1, hfin.2.2.2⟩

/-- C2 amended witness: a completing schedule over one network still has
all 12 workers, and index 0 is probed exactly once. -/
theorem pool_fixed_spawn_unique_claims_witness :
    (initState Nat 1).workers.length = concurrency ∧
    (runPool 1 (fun i => i) wSched).workers.length = concurrency ∧
    (runPool 1 (fun i => i) wSched).cursor = 1 ∧
    ∀ idx, idx < 1 → (runPool 1 (fun i => i) wSched).probes.getD idx 0 = 1 :=
  pool_fixed_spawn_unique_claims 1 (fun i => i) wSched (by decide)

/-- C7 counterexample: `const results: any[] = []` — at the moment the
fan-out workers start, the result array is empty, not pre-sized to the
network count (length 1 for a one-network registry). -/
theorem results_array_not_presized :
    ¬ ((initState Outcome ([wNet] : List Network).length).results.length =
        ([wNet] : List Network).length) := by
  decide

/-- C7 amended: the result array starts empty before the fan-out workers
run; workers write outcomes directly by index (the JS array grows as
needed), and its length equals the network count once all workers have
finished. -/
theorem results_start_empty_then_grow
    (networks : List Network) (priceResp : PriceResp)
    (probeResps : Nat → ProbeResp) (sched : List Nat)
    (hdone : allDone (poolOf networks priceResp probeResps sched) = true) :
    (initState Outcome networks.length).results.length = 0 ∧
    (poolOf networks priceResp probeResps sched).results.length = networks.length := by
  have hinv := inv_runPool networks.length
    (outcomeFor networks (pricingResult (idsNeeded networks) priceResp).1 probeResps)
    sched
  exact ⟨rfl, (final_state hinv hdone).2.1⟩

/-- C7 amended witness at the two-network test registry. -/
theorem results_start_empty_then_grow_witness :
    (initState Outcome ([wNet, wNet2] : List Network).length).results.length = 0 ∧
    (poolOf [wNet, wNet2] wPriceResp wProbe wSched).results.length =
      ([wNet, wNet2] : List Network).length :=
  results_start_empty_then_grow [wNet, wNet2] wPriceResp wProbe wSched (by decide)

/-- C3: when the price identifiers are nonempty and the upstream responds
non-2xx, `fetchUsdPrices` raises the single batch error; the aggregator
then proceeds with an empty price table, records the failure reason in the
snapshot's pricing metadata (`pricing.error` is the message, `idsPriced`
is empty), still probes every network exactly once, and every network
whose probe is a parsed 2xx response still reports `ok = true` with all
USD fields null. -/
theorem pricing_failure_nonfatal
    (networks : List Network) (apiKey : Option String) (priceResp : PriceResp)
    (probeResps : Nat → ProbeResp) (sched : List Nat)
    (hids : idsNeeded networks ≠ [])
    (hbad : httpOk priceResp.status = false)
    (hdone : allDone (poolOf networks priceResp probeResps sched) = true) :
    fetchUsdPrices (idsNeeded networks) priceResp =
      Except.error ("CoinGecko HTTP " ++ toString priceResp.status) ∧
    (snapshot networks apiKey priceResp probeResps sched).pricing.error =
      some ("CoinGecko HTTP " ++ toString priceResp.status) ∧
    (snapshot networks apiKey priceResp probeResps sched).pricing.idsPriced = [] ∧
    (∀ idx, idx < networks.length →
      (poolOf networks priceResp probeResps sched).probes.getD idx 0 = 1) ∧
    (∀ idx, idx < networks.length → ∀ status jsonRaw,
      probeResps idx = ProbeResp.http status (Except.ok jsonRaw) →
      httpOk status = true →
      ∃ o, getSparse (snapshot networks apiKey priceResp probeResps sched).results idx =
          some o ∧
        o.ok = true ∧
        o.nativeToken.usdPrice = none ∧
        o.summary = some (mkSummary none jsonRaw) ∧
        (mkSummary none jsonRaw).totalUsd = none ∧
        (mkSummary none jsonRaw).minUsd = none ∧
        ∀ s ∈ enrichedSenders none jsonRaw, jsGet s "usdValue" = some Json.null) := by
  have hfetch : fetchUsdPrices (idsNeeded networks) priceResp =
      Except.error ("CoinGecko HTTP " ++ toString priceResp.status) := by
    unfold fetchUsdPrices
    rw [if_neg (by simpa using hids), if_pos (by rw [hbad]; rfl)]
  have hpr : pricingResult (idsNeeded networks) priceResp =
      ([], some ("CoinGecko HTTP " ++ toString priceResp.status)) := by
    unfold pricingResult
    rw [hfetch]
  have hinv := inv_runPool networks.length
    (outcomeFor networks (pricingResult (idsNeeded networks) priceResp).1 probeResps)
    sched
  have hfin := final_state hinv hdone
  refine ⟨hfetch, ?_, ?_, hfin.2.2.2, ?_⟩
  · show (pricingResult (idsNeeded networks) priceResp).2 = _
    rw [hpr]
  · show ((pricingResult (idsNeeded networks) priceResp).1.map Prod.fst) = []
    rw [hpr]
    rfl
  · intro idx hidx status jsonRaw hresp hok
    refine ⟨_, hfin.2.2.1 idx hidx, ?_⟩
    have hout : outcomeFor networks (pricingResult (idsNeeded networks) priceResp).1
        probeResps idx =
        probeOutcome (networks.getD idx default)
          (((coinGeckoIdByNetworkName networks).lookup
              (networks.getD idx default).name).join)
          none (ProbeResp.http status (Except.ok jsonRaw)) := by
      unfold outcomeFor
      rw [hpr, hresp]
      dsimp only
      rw [usdPriceFor_nil]
    rw [hout, probeOutcome_http_ok _ _ _ _ _ hok]
    refine ⟨rfl, rfl, rfl, (mkSummary_none_usd jsonRaw).1, (mkSummary_none_usd jsonRaw).2, ?_⟩
    intro s hs
    obtain ⟨s0, _, hs0⟩ := List.mem_map.1 hs
    rw [← hs0]
    exact enrichSender_none_usdValue s0

/-- C3 witness: two networks, price feed returning HTTP 500, healthy
probes — the snapshot records the pricing error, prices nothing, and the
first network still succeeds with null USD fields. -/
theorem pricing_failure_nonfatal_witness :
    (snapshot [wNet, wNet2] none wPriceRespBad wProbe wSched).pricing.error =
      some ("CoinGecko HTTP " ++ toString wPriceRespBad.status) ∧
    (snapshot [wNet, wNet2] none wPriceRespBad wProbe wSched).pricing.idsPriced = [] ∧
    (∃ o, getSparse (snapshot [wNet, wNet2] none wPriceRespBad wProbe wSched).results 0 =
        some o ∧
      o.ok = true ∧
      o.nativeToken.usdPrice = none ∧
      o.summary = some (mkSummary none (Json.obj
        [("senders", Json.arr
            [Json.obj [("address", Json.str "0x1"), ("etherBalance", Json.num 1)]]),
         ("healthOK", Json.bool true)])) ∧
      (mkSummary none (Json.obj
        [("senders", Json.arr
            [Json.obj [("address", Json.str "0x1"), ("etherBalance", Json.num 1)]]),
         ("healthOK", Json.bool true)])).totalUsd = none ∧
      (mkSummary none (Json.obj
        [("senders", Json.arr
            [Json.obj [("address", Json.str "0x1"), ("etherBalance", Json.num 1)]]),
         ("healthOK", Json.bool true)])).minUsd = none ∧
      ∀ s ∈ enrichedSenders none (Json.obj
        [("senders", Json.arr
            [Json.obj [("address", Json.str "0x1"), ("etherBalance", Json.num 1)]]),
         ("healthOK", Json.bool true)]), jsGet s "usdValue" = some Json.null) :=
  ⟨(pricing_failure_nonfatal [wNet, wNet2] none wPriceRespBad wProbe wSched
      (by decide) (by decide) (by decide)).2.1,
   (pricing_failure_nonfatal [wNet, wNet2] none wPriceRespBad wProbe wSched
      (by decide) (by decide) (by decide)).2.2.1,
   (pricing_failure_nonfatal [wNet, wNet2] none wPriceRespBad wProbe wSched
      (by decide) (by decide) (by decide)).2.2.2.2 0 (by decide) 200 _ rfl (by decide)⟩

/-- C4: a non-2xx response yields a failure outcome whose `status` is the
HTTP status and whose `error` is the text `HTTP <status>` — it holds for
every body, parseable or not, so the body is never parsed, and no
data/summary fields are present; a transport fault with no response
yields a failure outcome with status 0 and the fault's message; and the
outcome of any other network index depends only on that index's own probe
response, so one network's failure leaves the others unaffected. -/
theorem probe_failure_shape_isolation (n : Network) (cgId : Option String)
    (p : Option ℚ) :
    (∀ status body, httpOk status = false →
      probeOutcome n cgId p (ProbeResp.http status body) =
        { network := n, url := urlFor n, ok := false, status := status,
          error := some ("HTTP " ++ toString status),
          nativeToken := mkNativeToken n cgId p, data := none, summary := none }) ∧
    (∀ msg, probeOutcome n cgId p (ProbeResp.fault msg) =
        { network := n, url := urlFor n, ok := false, status := 0,
          error := some msg,
          nativeToken := mkNativeToken n cgId p, data := none, summary := none }) ∧
    (∀ (networks : List Network) (prices : List (String × ℚ))
        (f g : Nat → ProbeResp) (i : Nat), (∀ j, j ≠ i → f j = g j) →
      ∀ j, j ≠ i → outcomeFor networks prices f j = outcomeFor networks prices g j) := by
  refine ⟨?_, ?_, ?_⟩
  · intro status body hbad
    unfold probeOutcome
    dsimp only
    rw [hbad]
    rfl
  · intro msg
    rfl
  · intro networks prices f g i hfg j hj
    unfold outcomeFor
    rw [hfg j hj]

/-- C4 witness: HTTP 503 with an unparseable body still reports `HTTP 503`
with status 503, and a transport fault reports status 0 with the fault's
message. -/
theorem probe_failure_shape_isolation_witness :
    probeOutcome wNet none none (ProbeResp.http 503 (Except.error "bad body")) =
      { network := wNet, url := urlFor wNet, ok := false, status := 503,
        error := some "HTTP 503", nativeToken := mkNativeToken wNet none none,
        data := none, summary := none } ∧
    probeOutcome wNet none none (ProbeResp.fault "connection reset") =
      { network := wNet, url := urlFor wNet, ok := false, status := 0,
        error := some "connection reset", nativeToken := mkNativeToken wNet none none,
        data := none, summary := none } :=
  ⟨(probe_failure_shape_isolation wNet none none).1 503 (Except.error "bad body")
      (by decide),
   (probe_failure_shape_isolation wNet none none).2.1 "connection reset"⟩

/-- C5: a successful outcome carries the computed summary; when the price
is unknown the per-sender `usdValue`, `summary.totalUsd` and
`summary.minUsd` are all null (in this rational-number model of JSON
numbers the fields are the `null`/`none` constructors, so they are in
particular neither NaN nor a defaulted 0); when the price is known each
sender's `usdValue` is its native balance times the price. -/
theorem success_usd_null_or_product (n : Network) (cgId : Option String)
    (status : Nat) (jsonRaw : Json) (p : Option ℚ) (hok : httpOk status = true) :
    (probeOutcome n cgId p (ProbeResp.http status (Except.ok jsonRaw))).summary =
      some (mkSummary p jsonRaw) ∧
    (p = none →
      (mkSummary p jsonRaw).totalUsd = none ∧
      (mkSummary p jsonRaw).minUsd = none ∧
      ∀ s ∈ enrichedSenders p jsonRaw, jsGet s "usdValue" = some Json.null) ∧
    (∀ q : ℚ, p = some q →
      ∀ s0 ∈ sendersOf jsonRaw,
        jsGet (enrichSender p s0) "usdValue" =
          some (Json.num ((ethBal s0).getD 0 * q))) := by
  refine ⟨?_, ?_, ?_⟩
  · rw [probeOutcome_http_ok _ _ _ _ _ hok]
  · intro hp
    subst hp
    refine ⟨(mkSummary_none_usd jsonRaw).1, (mkSummary_none_usd jsonRaw).2, ?_⟩
    intro s hs
    obtain ⟨s0, _, hs0⟩ := List.mem_map.1 hs
    rw [← hs0]
    exact enrichSender_none_usdValue s0
  · intro q hp s0 _
    subst hp
    exact enrichSender_some_usdValue q s0

/-- C5 witness: with a known price of 2000 the single sender of the test
payload is valued at 2000, and with no price its `usdValue` is null. -/
theorem success_usd_null_or_product_witness :
    (∀ s ∈ enrichedSenders none (Json.obj
        [("senders", Json.arr
            [Json.obj [("address", Json.str "0x1"), ("etherBalance", Json.num 1)]]),
         ("healthOK", Json.bool true)]),
      jsGet s "usdValue" = some Json.null) ∧
    (∀ s0 ∈ sendersOf (Json.obj
        [("senders", Json.arr
            [Json.obj [("address", Json.str "0x1"), ("etherBalance", Json.num 1)]]),
         ("healthOK", Json.bool true)]),
      jsGet (enrichSender (some 2000) s0) "usdValue" =
        some (Json.num ((ethBal s0).getD 0 * 2000))) :=
  ⟨((success_usd_null_or_product wNet (some "ethereum") 200
      (Json.obj
        [("senders", Json.arr
            [Json.obj [("address", Json.str "0x1"), ("etherBalance", Json.num 1)]]),
         ("healthOK", Json.bool true)]) none (by decide)).2.1 rfl).2.2,
   (success_usd_null_or_product wNet (some "ethereum") 200
      (Json.obj
        [("senders", Json.arr
            [Json.obj [("address", Json.str "0x1"), ("etherBalance", Json.num 1)]]),
         ("healthOK", Json.bool true)]) (some 2000) (by decide)).2.2 2000 rfl⟩

/-- Characterisation of `minNative`: null exactly on the empty list, and
otherwise the least element of the effective balance list. -/
theorem minNative_spec (es : List Json) :
    (minNative es = none ↔ es = []) ∧
    ∀ m, minNative es = some m →
      m ∈ es.map (fun s => (ethBal s).getD 0) ∧
      ∀ b ∈ es.map (fun s => (ethBal s).getD 0), m ≤ b := by
  unfold minNative
  cases h : es.map (fun s => (ethBal s).getD 0) with
  | nil =>
    constructor
    · simp [List.map_eq_nil_iff.1 h]
    · intro m hm
      cases hm
  | cons b bs =>
    have hne : es ≠ [] := by
      intro hc
      rw [hc] at h
      cases h
    constructor
    · simp [hne]
    · intro m hm
      have hm2 : bs.foldl min b = m := by
        simpa using hm
      subst hm2
      refine ⟨foldl_min_mem b bs, ?_⟩
      intro x hx
      rcases List.mem_cons.1 hx with h1 | h1
      · rw [h1]
        exact foldl_min_le_init b bs
      · exact foldl_min_le_mem b bs x h1

/-- C6: `summary.minNative` is null exactly when the enriched sender list
is empty; when nonempty it is the true minimum of the effective native
balances of that list (an element of the balance list that bounds every
element from below, an absent or non-numeric balance entering as 0); and
a payload with no array-valued `senders` property yields an empty
enriched list, `senderCount = 0` and a null `minNative`. -/
theorem min_native_null_iff_empty (p : Option ℚ) (jsonRaw : Json) :
    ((mkSummary p jsonRaw).minNative = none ↔ enrichedSenders p jsonRaw = []) ∧
    (∀ m, (mkSummary p jsonRaw).minNative = some m →
      m ∈ (enrichedSenders p jsonRaw).map (fun s => (ethBal s).getD 0) ∧
      ∀ b ∈ (enrichedSenders p jsonRaw).map (fun s => (ethBal s).getD 0), m ≤ b) ∧
    ((∀ l, jsGet jsonRaw "senders" ≠ some (Json.arr l)) →
      enrichedSenders p jsonRaw = [] ∧
      (mkSummary p jsonRaw).senderCount = 0 ∧
      (mkSummary p jsonRaw).minNative = none) := by
  have hmn : (mkSummary p jsonRaw).minNative = minNative (enrichedSenders p jsonRaw) := rfl
  have hspec := minNative_spec (enrichedSenders p jsonRaw)
  refine ⟨?_, ?_, ?_⟩
  · rw [hmn]
    exact hspec.1
  · intro m hm
    rw [hmn] at hm
    exact hspec.2 m hm
  · intro habs
    have hsend : sendersOf jsonRaw = [] := by
      unfold sendersOf
      cases hj : jsGet jsonRaw "senders" with
      | none => rfl
      | some v =>
        cases v with
        | arr l => exact absurd hj (habs l)
        | null => rfl
        | bool b => rfl
        | num x => rfl
        | str s => rfl
        | obj fs => rfl
    have hes : enrichedSenders p jsonRaw = [] := by
      unfold enrichedSenders
      rw [hsend]
      rfl
    refine ⟨hes, ?_, ?_⟩
    · show (enrichedSenders p jsonRaw).length = 0
      rw [hes]
      rfl
    · rw [hmn]
      unfold minNative
      rw [hes]
      rfl

/-- C6 witness: a payload without a `senders` property gives an empty
enriched list, zero sender count and null minimum. -/
theorem min_native_null_iff_empty_witness :
    enrichedSenders (some 2000) (Json.obj [("healthOK", Json.bool true)]) = [] ∧
    (mkSummary (some 2000) (Json.obj [("healthOK", Json.bool true)])).senderCount = 0 ∧
    (mkSummary (some 2000) (Json.obj [("healthOK", Json.bool true)])).minNative = none :=
  (min_native_null_iff_empty (some 2000) (Json.obj [("healthOK", Json.bool true)])).2.2
    (fun _ h => nomatch h)

/-- C8: for a successful probe the outcome's `data` is the enriched
payload, whose `senders` key holds exactly the enriched sender list; every
key other than `senders` looks up to the same value as the corresponding
top-level entry of the original payload (its fields for an object payload,
its index-keyed elements for an array payload, nothing for a primitive,
which has no top-level fields); in particular for an object payload every
other top-level field is present and unchanged. -/
theorem enriched_payload_frame (n : Network) (cgId : Option String) (p : Option ℚ)
    (status : Nat) (jsonRaw : Json) (hok : httpOk status = true) :
    (probeOutcome n cgId p (ProbeResp.http status (Except.ok jsonRaw))).data =
      some (enrichedData p jsonRaw) ∧
    jsGet (enrichedData p jsonRaw) "senders" =
      some (Json.arr (enrichedSenders p jsonRaw)) ∧
    (∀ k, k ≠ "senders" →
      jsGet (enrichedData p jsonRaw) k = (dataEntriesBase jsonRaw).lookup k) ∧
    (∀ fs, jsonRaw = Json.obj fs → ∀ k, k ≠ "senders" →
      jsGet (enrichedData p jsonRaw) k = jsGet jsonRaw k) := by
  have hframe : ∀ k, k ≠ "senders" →
      jsGet (enrichedData p jsonRaw) k = (dataEntriesBase jsonRaw).lookup k := by
    intro k hk
    show (objSet (dataEntriesBase jsonRaw) "senders"
        (Json.arr (enrichedSenders p jsonRaw))).lookup k = _
    exact lookup_objSet_ne _ _ _ k hk
  refine ⟨?_, ?_, hframe, ?_⟩
  · rw [probeOutcome_http_ok _ _ _ _ _ hok]
  · show (objSet (dataEntriesBase jsonRaw) "senders"
        (Json.arr (enrichedSenders p jsonRaw))).lookup "senders" = _
    exact lookup_objSet_self _ _ _
  · intro fs hfs k hk
    rw [hframe k hk, hfs]
    rfl

/-- C8 witness: in the test payload the `healthOK` field survives
enrichment unchanged and `senders` holds the enriched list. -/
theorem enriched_payload_frame_witness :
    jsGet (enrichedData (some 2000) (Json.obj
        [("senders", Json.arr
            [Json.obj [("address", Json.str "0x1"), ("etherBalance", Json.num 1)]]),
         ("healthOK", Json.bool true)])) "senders" =
      some (Json.arr (enrichedSenders (some 2000) (Json.obj
        [("senders", Json.arr
            [Json.obj [("address", Json.str "0x1"), ("etherBalance", Json.num 1)]]),
         ("healthOK", Json.bool true)]))) ∧
    jsGet (enrichedData (some 2000) (Json.obj
        [("senders", Json.arr
            [Json.obj [("address", Json.str "0x1"), ("etherBalance", Json.num 1)]]),
         ("healthOK", Json.bool true)])) "healthOK" =
      jsGet (Json.obj
        [("senders", Json.arr
            [Json.obj [("address", Json.str "0x1"), ("etherBalance", Json.num 1)]]),
         ("healthOK", Json.bool true)]) "healthOK" :=
  ⟨(enriched_payload_frame wNet (some "ethereum") (some 2000) 200 _ (by decide)).2.1,
   (enriched_payload_frame wNet (some "ethereum") (some 2000) 200 _ (by decide)).2.2.2
     _ rfl "healthOK" (by decide)⟩

/-- C9: every outcome, on the success branch and on both failure branches,
carries the `nativeToken` record with the network's native-currency symbol
and name, the resolved CoinGecko identifier and the resolved USD price
(null when unknown); at the pipeline level the record for index `idx` uses
the identifier resolved through `coinGeckoIdByNetworkName` and its price
from the price table. -/
theorem outcome_native_token (n : Network) (cgId : Option String) (p : Option ℚ)
    (resp : ProbeResp) (networks : List Network) (prices : List (String × ℚ))
    (probeResps : Nat → ProbeResp) (idx : Nat) :
    (probeOutcome n cgId p resp).nativeToken = mkNativeToken n cgId p ∧
    (mkNativeToken n cgId p).symbol = n.nativeCurrency.map NativeCurrency.symbol ∧
    (mkNativeToken n cgId p).name = n.nativeCurrency.map NativeCurrency.name ∧
    (mkNativeToken n cgId p).coinGeckoId = cgId ∧
    (mkNativeToken n cgId p).usdPrice = p ∧
    (outcomeFor networks prices probeResps idx).nativeToken =
      mkNativeToken (networks.getD idx default)
        (((coinGeckoIdByNetworkName networks).lookup
            (networks.getD idx default).name).join)
        (usdPriceFor prices
          (((coinGeckoIdByNetworkName networks).lookup
              (networks.getD idx default).name).join)) := by
  refine ⟨probeOutcome_nativeToken n cgId p resp, rfl, rfl, rfl, rfl, ?_⟩
  unfold outcomeFor
  exact probeOutcome_nativeToken _ _ _ _

/-- C10: when the price is known, a sender whose `etherBalance` is absent
or not a number gets `usdValue = 0` (the balance is treated as 0 and
multiplied by the price), not null; and `usdValue` is null exactly when
the price is unknown. -/
theorem absent_balance_usd_zero (s : Json) (q : ℚ) :
    (ethBal s = none →
      jsGet (enrichSender (some q) s) "usdValue" = some (Json.num 0)) ∧
    (∀ p : Option ℚ, jsGet (enrichSender p s) "usdValue" = some Json.null ↔ p = none) := by
  constructor
  · intro h
    rw [enrichSender_some_usdValue, h]
    norm_num
  · intro p
    cases p with
    | none => simp [enrichSender_none_usdValue s]
    | some q2 =>
      rw [enrichSender_some_usdValue]
      simp

/-- C10 witness: a sender entry with no `etherBalance` field is valued at
0 USD under a price of 2000. -/
theorem absent_balance_usd_zero_witness :
    jsGet (enrichSender (some 2000) (Json.obj [("address", Json.str "0xa")]))
      "usdValue" = some (Json.num 0) :=
  (absent_balance_usd_zero (Json.obj [("address", Json.str "0xa")]) 2000).1 rfl

end RelayerStatus
